import Mathlib

/-!
# fabric8-jenkins-proxy, package `internal/configuration`

A shallow embedding of `viper.go`: the constructor `New`, the typed accessors,
the redacted dump `Config.String` and the validator `Config.verify`.

* Go strings are lists of characters (`GoString`).
* The process environment is passed explicitly to every operation that reads it,
  because the environment source is read at call time.
* `New` returns, as in Go, a pair of an optional configuration and an optional error.
* The settings map (`map[string]interface{}`) is an association list, read in the
  order in which the map is ranged over or printed.
-/

set_option maxRecDepth 100000

namespace Configuration

/-! ## Strings -/

/-- A Go string, as the sequence of its characters. -/
abbrev GoString := List Char

/-- The upper-case form of an ASCII letter; every other character is left alone. -/
def upperChar (c : Char) : Char :=
  if 'a' ≤ c ∧ c ≤ 'z' then Char.ofNat (c.toNat - 32) else c

/-- The lower-case form of an ASCII letter; every other character is left alone. -/
def lowerChar (c : Char) : Char :=
  if 'A' ≤ c ∧ c ≤ 'Z' then Char.ofNat (c.toNat + 32) else c

/-- Go `strings.ToUpper`, on the ASCII letters that key names are written in. -/
def ToUpper (s : GoString) : GoString := s.map upperChar

/-- Go `strings.ToLower`, on the ASCII letters that key names are written in. -/
def ToLower (s : GoString) : GoString := s.map lowerChar

/-- Go `strings.HasPrefix s p`. -/
def startsWith : GoString → GoString → Bool
  | _, [] => true
  | [], _ :: _ => false
  | c :: s, d :: p => c == d && startsWith s p

/-- Go `strings.Contains s substr`: `substr` occurs in `s` at some position. -/
def Contains : GoString → GoString → Bool
  | [], substr => substr.isEmpty
  | c :: s, substr => startsWith (c :: s) substr || Contains s substr

/-- Go `strings.Split s sep` for a separator of one character: the segments between
the occurrences of `sep`, empty segments included. -/
def Split : GoString → Char → List GoString
  | [], _ => [[]]
  | c :: s, sep =>
    if c = sep then [] :: Split s sep
    else
      match Split s sep with
      | [] => [[c]]
      | seg :: rest => (c :: seg) :: rest

/-- Go `strings.Join segs sep` for a separator of one character. -/
def Join (segs : List GoString) (sep : Char) : GoString :=
  List.intercalate [sep] segs

/-- Case-insensitive containment, the comparison the specification words the
redaction rule with: `sub` occurs in `s` once both are lower-cased. -/
def containsFold (s sub : GoString) : Bool :=
  Contains (ToLower s) (ToLower sub)

/-! ## Values and their printed form -/

/-- A value held by a source: one of the native types the registry declares
(`string`, `int`, `bool`, `time.Duration` in nanoseconds). -/
inductive Value where
  | str (s : GoString)
  | int (i : Int)
  | bool (b : Bool)
  | dur (ns : Int)
deriving DecidableEq, Repr

/-- The settings map `map[string]interface{}`. -/
abbrev Settings := List (GoString × Value)

/-- Go `strconv.Itoa`. -/
def Itoa (i : Int) : GoString :=
  match i with
  | Int.ofNat n => Nat.toDigits 10 n
  | Int.negSucc n => '-' :: Nat.toDigits 10 (n + 1)

/-- Go `strconv.FormatBool`. -/
def FormatBool (b : Bool) : GoString :=
  if b then "true".toList else "false".toList

/-- The loop of Go `time.fmtFrac`: `prec` low digits of `v` are written in front of
`buf`, trailing zeros omitted. -/
def fmtFracLoop : Nat → Bool → GoString → Nat → Bool × GoString × Nat
  | 0, print, buf, v => (print, buf, v)
  | prec + 1, print, buf, v =>
    let digit := v % 10
    let print := print || digit != 0
    let buf := if print then Char.ofNat (digit + 48) :: buf else buf
    fmtFracLoop prec print buf (v / 10)

/-- Go `time.fmtFrac`: the fraction `v / 10^prec` written in front of `buf`, and the
integer part `v / 10^prec`. -/
def fmtFrac (buf : GoString) (v prec : Nat) : GoString × Nat :=
  match fmtFracLoop prec false buf v with
  | (print, buf, v) => (if print then '.' :: buf else buf, v)

/-- Go `time.fmtInt`: the decimal form of `v` written in front of `buf`. -/
def fmtInt (buf : GoString) (v : Nat) : GoString :=
  Nat.toDigits 10 v ++ buf

/-- Go `time.Duration.String`, for a duration of `d` nanoseconds. -/
def durationString (d : Int) : GoString :=
  let u := d.natAbs
  let body : GoString :=
    if u < 1000000000 then
      if u = 0 then "0s".toList
      else
        let unit : Nat × GoString :=
          if u < 1000 then (0, "ns".toList)
          else if u < 1000000 then (3, "µs".toList)
          else (6, "ms".toList)
        match fmtFrac unit.2 u unit.1 with
        | (buf, u) => fmtInt buf u
    else
      match fmtFrac "s".toList u 9 with
      | (buf, u) =>
        let buf := fmtInt buf (u % 60)
        let u := u / 60
        if u > 0 then
          let buf := fmtInt ('m' :: buf) (u % 60)
          let u := u / 60
          if u > 0 then fmtInt ('h' :: buf) u else buf
        else buf
  if d < 0 then '-' :: body else body

/-- The form in which `fmt` prints a value under the verb `%v`. -/
def formatValue : Value → GoString
  | Value.str s => s
  | Value.int i => Itoa i
  | Value.bool b => FormatBool b
  | Value.dur ns => durationString ns

/-- Go `fmt.Sprintf("%v", all)` for a settings map: `map[k1:v1 k2:v2]`, the entries
in the order in which the map is printed. -/
def Sprintf (all : Settings) : GoString :=
  "map[".toList ++ List.intercalate " ".toList (all.map fun kv => kv.1 ++ ":".toList ++ formatValue kv.2)
    ++ "]".toList

/-! ## Errors and the multi-error collector (package `util`) -/

/-- The constraint a validation rule checks. -/
inductive Constraint where
  | nonEmpty
  | wellFormedURL
deriving DecidableEq, Repr

/-- A Go `error` value, by the way it was built. -/
inductive Error where
  /-- An error raised by a collaborator (reading or parsing the file, ...). -/
  | external (msg : GoString)
  /-- A validation fault: the key and the constraint it violates. -/
  | violated (key : GoString) (constraint : Constraint)
  /-- The single error `MultiError.ToError` makes of the collected errors. -/
  | combined (errs : List Error)
  /-- The result of `errs.Errorf(format, cause)`. -/
  | errorf (format : GoString) (cause : Error)
  /-- The result of `errors.Wrap(cause, message)`. -/
  | wrap (cause : Error) (message : GoString)

/-- Modelled from the spec: `util.MultiError`, which is not among the sources. The
multi-error collector of §3, an accumulator that holds the ordered sequence of the
errors collected in one validation pass. -/
structure MultiError where
  Errors : List Error

/-- Modelled from the spec: `util.MultiError.Collect`, which is not among the sources.
The collector is given the outcome of one rule and keeps it when it is an error; a rule
that passed (`nil`) leaves the collector as it is, so that the result is empty exactly
when every rule passed (§4.2). -/
def MultiError.Collect (m : MultiError) (err : Option Error) : MultiError :=
  match err with
  | none => m
  | some e => { Errors := m.Errors ++ [e] }

/-- Modelled from the spec: `util.MultiError.Empty`, which is not among the sources:
whether no error was collected (§3, (a)). -/
def MultiError.Empty (m : MultiError) : Bool := m.Errors.isEmpty

/-- Modelled from the spec: `util.MultiError.ToError`, which is not among the sources:
a single combined error summarizing all the collected errors (§3, (c)); no error when
nothing was collected. -/
def MultiError.ToError (m : MultiError) : Option Error :=
  if m.Errors.isEmpty then none else some (Error.combined m.Errors)

/-- Modelled from the spec: `util.IsNotEmpty`, which is not among the sources. The rule
*is-non-empty* of §4.2: the string must not be the empty string; a failure names the key
and the violated constraint. -/
def IsNotEmpty (value : Value) (key : GoString) : Option Error :=
  if value = Value.str [] then some (Error.violated key Constraint.nonEmpty) else none

/-- The rule `util.IsURL` is not among the sources and its syntactic check of a URL is
not modelled: the rule is a parameter of the validator, from a value and a key to the
error it reports (`none` when the value passes). -/
abbrev URLRule := Value → GoString → Option Error

/-- Go `errors.Wrap` of `github.com/pkg/errors`: `nil` stays `nil`, an error is wrapped
with the message. -/
def Wrap (err : Option Error) (message : GoString) : Option Error :=
  match err with
  | none => none
  | some e => some (Error.wrap e message)

/-! ## Coercion to the declared types -/

/-- The value of a decimal digit. -/
def digitVal (c : Char) : Option Nat :=
  if '0' ≤ c ∧ c ≤ '9' then some (c.toNat - 48) else none

/-- A non-empty run of decimal digits, as a number. -/
def parseNat (s : GoString) : Option Nat :=
  match s with
  | [] => none
  | _ :: _ =>
    s.foldl (fun acc c =>
      match acc, digitVal c with
      | some n, some d => some (10 * n + d)
      | _, _ => none) (some 0)

/-- Modelled from the spec: the integer coercion of §4.1, raw text parsed as a base-10
signed integer; `none` is the coercion fault of malformed text. The library that parses
is not among the sources. -/
def parseInt (s : GoString) : Option Int :=
  match s with
  | '-' :: r => (parseNat r).map fun n => - (n : Int)
  | '+' :: r => (parseNat r).map fun n => (n : Int)
  | _ => (parseNat s).map fun n => (n : Int)

/-- Modelled from the spec: the boolean coercion of §4.1, the spellings `true` and
`false` in any case, and `1` and `0`; `none` is the coercion fault. The library that
parses is not among the sources. -/
def parseBool (s : GoString) : Option Bool :=
  if ToLower s = "true".toList ∨ s = "1".toList then some true
  else if ToLower s = "false".toList ∨ s = "0".toList then some false
  else none

/-- The number of nanoseconds in a unit of duration. -/
def unitNanos (unit : GoString) : Option Nat :=
  if unit = "ns".toList then some 1
  else if unit = "us".toList ∨ unit = "µs".toList then some 1000
  else if unit = "ms".toList then some 1000000
  else if unit = "s".toList then some 1000000000
  else if unit = "m".toList then some 60000000000
  else if unit = "h".toList then some 3600000000000
  else none

/-- Modelled from the spec: the duration coercion of §4.1, raw text parsed as a
magnitude followed by a unit (`5s`), in nanoseconds; `none` is the coercion fault. The
library that parses is not among the sources. -/
def parseDuration (s : GoString) : Option Int :=
  let digits := s.takeWhile fun c => decide (('0' ≤ c) ∧ (c ≤ '9'))
  let unit := s.dropWhile fun c => decide (('0' ≤ c) ∧ (c ≤ '9'))
  match parseNat digits, unitNanos unit with
  | some n, some k => some ((n * k : Nat) : Int)
  | _, _ => none

/-- Modelled from the spec: coercion to the string type (§4.1), raw text returned
verbatim; a native value of another type gives its printed form. The casting library is
not among the sources. -/
def ToString : Value → GoString
  | Value.str s => s
  | v => formatValue v

/-- Modelled from the spec: coercion to the integer type (§4.1). The accessors have no
error result: a fault gives the zero value of the type. A native boolean counts as 1 or
0. The casting library is not among the sources. -/
def ToInt : Value → Int
  | Value.int i => i
  | Value.str s => (parseInt s).getD 0
  | Value.bool b => if b then 1 else 0
  | Value.dur _ => 0

/-- Modelled from the spec: coercion to the boolean type (§4.1). The accessors have no
error result: a fault gives the zero value of the type. A native integer is true when it
is not zero. The casting library is not among the sources. -/
def ToBool : Value → Bool
  | Value.bool b => b
  | Value.str s => (parseBool s).getD false
  | Value.int i => i != 0
  | Value.dur _ => false

/-- Modelled from the spec: coercion to the duration type (§4.1), in nanoseconds. The
accessors have no error result: a fault gives the zero value of the type. A native
integer is a number of nanoseconds. The casting library is not among the sources. -/
def ToDuration : Value → Int
  | Value.dur ns => ns
  | Value.str s => (parseDuration s).getD 0
  | Value.int i => i
  | Value.bool _ => 0

/-! ## The resolver (the configuration registry `viper.Viper`) -/

/-- The process environment: variable names with their values. -/
abbrev Environ := List (GoString × GoString)

/-- Reading and parsing the configuration file: from the configuration type and the
path to the entries of the document, or to the error of the read or of the parse. -/
abbrev FileSystem := GoString → GoString → Except Error Settings

/-- Modelled from the spec: the registry `viper.Viper` that `Config` encapsulates; the
library is not among the sources. It holds the source layer of §2: the switches that
`New` sets, the file source and the default source. The environment source is the
process environment, read at every call. -/
structure Viper where
  automaticEnvApplied : Bool
  envKeyReplacer : Option (Char × Char)
  typeByDefValue : Bool
  configType : GoString
  configFile : GoString
  config : Settings
  defaults : Settings
deriving DecidableEq, Repr

namespace Viper

/-- Modelled from the spec: `viper.New()`, an empty registry. -/
def New : Viper :=
  { automaticEnvApplied := false, envKeyReplacer := none, typeByDefValue := false,
    configType := [], configFile := [], config := [], defaults := [] }

/-- Modelled from the spec: `AutomaticEnv()`, the environment source is consulted for
every key (§2, §4.1). -/
def AutomaticEnv (v : Viper) : Viper := { v with automaticEnvApplied := true }

/-- Modelled from the spec: `SetEnvKeyReplacer(strings.NewReplacer(old, new))`, the
separator of a key is replaced in the name of its environment variable (§6). -/
def SetEnvKeyReplacer (v : Viper) (old new : Char) : Viper :=
  { v with envKeyReplacer := some (old, new) }

/-- Modelled from the spec: `SetTypeByDefaultValue(enable)`, a resolved value is given
the type of the key's default, the declared type of §3. -/
def SetTypeByDefaultValue (v : Viper) (enable : Bool) : Viper :=
  { v with typeByDefValue := enable }

/-- Put a value under a key of a source, in place of the value the key had. -/
def put (m : Settings) (key : GoString) (value : Value) : Settings :=
  if (m.lookup key).isSome then m.map fun kv => if kv.1 = key then (key, value) else kv
  else m ++ [(key, value)]

/-- Modelled from the spec: `SetDefault(key, value)`, the default source is given a
value for the key (§3); keys are kept in lower case, the variable name being the
upper-cased key (§6). -/
def SetDefault (v : Viper) (key : GoString) (value : Value) : Viper :=
  { v with defaults := put v.defaults (ToLower key) value }

/-- Modelled from the spec: `SetConfigType(in)`. -/
def SetConfigType (v : Viper) (typ : GoString) : Viper := { v with configType := typ }

/-- Modelled from the spec: `SetConfigFile(in)`. -/
def SetConfigFile (v : Viper) (path : GoString) : Viper := { v with configFile := path }

/-- Modelled from the spec: `ReadInConfig()`, the file source is populated by parsing
the document once (§3); a read or parse failure is returned (§5, §7). Keys are kept in
lower case. -/
def ReadInConfig (v : Viper) (fs : FileSystem) : Except Error Viper :=
  match fs v.configType v.configFile with
  | Except.error err => Except.error err
  | Except.ok doc => Except.ok { v with config := doc.map fun kv => (ToLower kv.1, kv.2) }

/-- Modelled from the spec: the name of the environment variable of a key, the key with
separators replaced and upper-cased (§6). -/
def envName (v : Viper) (lcaseKey : GoString) : GoString :=
  match v.envKeyReplacer with
  | none => ToUpper lcaseKey
  | some (old, new) => (ToUpper lcaseKey).map fun c => if c = old then new else c

/-- Modelled from the spec: the resolution of §4.1. The sources are queried in the
order Environment, File, Default; the first source that has a value for the key wins;
`none` when no source has the key. -/
def find (v : Viper) (env : Environ) (lcaseKey : GoString) : Option Value :=
  match (if v.automaticEnvApplied then env.lookup (v.envName lcaseKey) else none) with
  | some raw => some (Value.str raw)
  | none =>
    match v.config.lookup lcaseKey with
    | some val => some val
    | none => v.defaults.lookup lcaseKey

/-- Modelled from the spec: a value coerced to the type of another value (§4.1). -/
def castAs (typ val : Value) : Value :=
  match typ with
  | Value.str _ => Value.str (ToString val)
  | Value.int _ => Value.int (ToInt val)
  | Value.bool _ => Value.bool (ToBool val)
  | Value.dur _ => Value.dur (ToDuration val)

/-- Modelled from the spec: `Get(key)`, the resolved value of a key (§4.1), with the
type of the key's default when typing by default value is on. -/
def Get (v : Viper) (env : Environ) (key : GoString) : Option Value :=
  let lcaseKey := ToLower key
  match v.find env lcaseKey with
  | none => none
  | some val =>
    if v.typeByDefValue then
      match v.defaults.lookup lcaseKey with
      | some defVal => some (castAs defVal val)
      | none => some val
    else some val

/-- Modelled from the spec: `GetString(key)`; the zero value when no source has the key
(§3). -/
def GetString (v : Viper) (env : Environ) (key : GoString) : GoString :=
  match v.Get env key with
  | none => []
  | some val => ToString val

/-- Modelled from the spec: `GetInt(key)`; the zero value when no source has the key. -/
def GetInt (v : Viper) (env : Environ) (key : GoString) : Int :=
  match v.Get env key with
  | none => 0
  | some val => ToInt val

/-- Modelled from the spec: `GetBool(key)`; the zero value when no source has the key. -/
def GetBool (v : Viper) (env : Environ) (key : GoString) : Bool :=
  match v.Get env key with
  | none => false
  | some val => ToBool val

/-- Modelled from the spec: `GetDuration(key)`, in nanoseconds; the zero value when no
source has the key. -/
def GetDuration (v : Viper) (env : Environ) (key : GoString) : Int :=
  match v.Get env key with
  | none => 0
  | some val => ToDuration val

/-- Modelled from the spec: the keys `AllSettings` lists, those of the file source and
of the default source, each once. -/
def AllKeys (v : Viper) : List GoString :=
  ((v.config.map fun kv => kv.1) ++ (v.defaults.map fun kv => kv.1)).eraseDups

/-- Modelled from the spec: `AllSettings()`, the snapshot of the resolved settings: the
known keys, in lower case, each with its resolved value. -/
def AllSettings (v : Viper) (env : Environ) : Settings :=
  v.AllKeys.filterMap fun k =>
    match v.Get env k with
    | none => none
    | some val => some (ToLower k, val)

end Viper

/-! ## `viper.go` -/

def pgHost : GoString := "JC_POSTGRES_HOST".toList
def pgPort : GoString := "JC_POSTGRES_PORT".toList
def pgDB : GoString := "JC_POSTGRES_DATABASE".toList
def pgUser : GoString := "JC_POSTGRES_USER".toList
def pgPass : GoString := "JC_POSTGRES_PASSWORD".toList
def pgSSLMode : GoString := "JC_POSTGRES_SSL_MODE".toList
def pgConnTimeout : GoString := "JC_POSTGRES_CONNECTION_TIMEOUT".toList
def pgConnMaxIdle : GoString := "JC_POSTGRES_CONNECTION_MAX_IDLE".toList
def pgConnMaxOpen : GoString := "JC_POSTGRES_CONNECTION_MAX_OPEN".toList

def idlerAPIURL : GoString := "JC_IDLER_API_URL".toList
def authURL : GoString := "JC_AUTH_URL".toList
def authToken : GoString := "JC_AUTH_TOKEN".toList
def f8TenantAPIURL : GoString := "JC_F8TENANT_API_URL".toList
def witAPIURL : GoString := "JC_WIT_API_URL".toList

def redirectURL : GoString := "JC_REDIRECT_URL".toList
def indexPath : GoString := "JC_INDEX_PATH".toList
def maxRequestRetry : GoString := "JC_MAX_REQUEST_RETRY".toList
def debugMode : GoString := "JC_DEBUG_MODE".toList
def enableHTTPS : GoString := "JC_ENABLE_HTTPS".toList
def gatewayTimeout : GoString := "JC_GATEWAY_TIMEOUT".toList
def allowedOrigins : GoString := "JC_ALLOWED_ORIGINS".toList

def defaultPostgresSSLMode : GoString := "disable".toList
def defaultPostgresConnectionTimeout : Int := 5
def defaultPostgresConnectionMaxIdle : Int := -1
def defaultPostgresConnectionMaxOpen : Int := -1
def defaultIndexPath : GoString := "/opt/fabric8-jenkins-proxy/index.html".toList
def defaultMaxRequestRetry : Int := 10
def defaultDebugMode : Bool := false
def defaultHTTPSEnabled : Bool := false
/-- The constant `5 * time.Second`, in nanoseconds. -/
def defaultGatewayTimeout : Int := 5 * 1000000000
def defaultAllowedOrigins : GoString :=
  "https://*openshift.io,https://localhost:*,http://localhost:*".toList

/-- Config encapsulates the Viper configuration registry which stores the
configuration data in-memory. -/
structure Config where
  v : Viper
deriving DecidableEq, Repr

namespace Config

/-- The method `setConfigDefaults`. -/
def setConfigDefaults (c : Config) : Config :=
  let v := c.v
  let v := v.SetDefault pgSSLMode (Value.str defaultPostgresSSLMode)
  let v := v.SetDefault pgConnTimeout (Value.int defaultPostgresConnectionTimeout)
  let v := v.SetDefault pgConnMaxIdle (Value.int defaultPostgresConnectionMaxIdle)
  let v := v.SetDefault pgConnMaxOpen (Value.int defaultPostgresConnectionMaxOpen)
  let v := v.SetDefault indexPath (Value.str defaultIndexPath)
  let v := v.SetDefault maxRequestRetry (Value.int defaultMaxRequestRetry)
  let v := v.SetDefault debugMode (Value.bool defaultDebugMode)
  let v := v.SetDefault enableHTTPS (Value.bool defaultHTTPSEnabled)
  let v := v.SetDefault gatewayTimeout (Value.dur defaultGatewayTimeout)
  let v := v.SetDefault allowedOrigins (Value.str defaultAllowedOrigins)
  { v := v }

/-- GetPostgresHost returns the postgres host. -/
def GetPostgresHost (c : Config) (env : Environ) : GoString := c.v.GetString env pgHost

/-- GetPostgresPort returns the postgres port. -/
def GetPostgresPort (c : Config) (env : Environ) : Int := c.v.GetInt env pgPort

/-- GetPostgresUser returns the postgres user. -/
def GetPostgresUser (c : Config) (env : Environ) : GoString := c.v.GetString env pgUser

/-- GetPostgresDatabase returns the postgres database. -/
def GetPostgresDatabase (c : Config) (env : Environ) : GoString := c.v.GetString env pgDB

/-- GetPostgresPassword returns the postgres password. -/
def GetPostgresPassword (c : Config) (env : Environ) : GoString := c.v.GetString env pgPass

/-- GetPostgresSSLMode returns the postgres sslmode. -/
def GetPostgresSSLMode (c : Config) (env : Environ) : GoString := c.v.GetString env pgSSLMode

/-- GetPostgresConnectionTimeout returns the postgres connection timeout. -/
def GetPostgresConnectionTimeout (c : Config) (env : Environ) : Int :=
  c.v.GetInt env pgConnTimeout

/-- GetPostgresConnectionMaxIdle returns the number of connections that should be kept
alive in the database connection pool. -/
def GetPostgresConnectionMaxIdle (c : Config) (env : Environ) : Int :=
  c.v.GetInt env pgConnMaxIdle

/-- GetPostgresConnectionMaxOpen returns the max number of open connections. -/
def GetPostgresConnectionMaxOpen (c : Config) (env : Environ) : Int :=
  c.v.GetInt env pgConnMaxOpen

/-- GetIdlerURL returns the Idler API URL. -/
def GetIdlerURL (c : Config) (env : Environ) : GoString := c.v.GetString env idlerAPIURL

/-- GetAuthURL returns the Auth API URL. -/
def GetAuthURL (c : Config) (env : Environ) : GoString := c.v.GetString env authURL

/-- GetTenantURL returns the F8 Tenant API URL. -/
def GetTenantURL (c : Config) (env : Environ) : GoString := c.v.GetString env f8TenantAPIURL

/-- GetWitURL returns the WIT API URL. -/
def GetWitURL (c : Config) (env : Environ) : GoString := c.v.GetString env witAPIURL

/-- GetAuthToken returns the Auth token. -/
def GetAuthToken (c : Config) (env : Environ) : GoString := c.v.GetString env authToken

/-- GetRedirectURL returns the redirect url to be passed to Auth. -/
def GetRedirectURL (c : Config) (env : Environ) : GoString := c.v.GetString env redirectURL

/-- GetIndexPath returns the path to the loading page template. -/
def GetIndexPath (c : Config) (env : Environ) : GoString := c.v.GetString env indexPath

/-- GetMaxRequestRetry returns the number of retries for webhook request forwarding. -/
def GetMaxRequestRetry (c : Config) (env : Environ) : Int := c.v.GetInt env maxRequestRetry

/-- GetDebugMode returns if debug mode should be enabled. -/
def GetDebugMode (c : Config) (env : Environ) : Bool := c.v.GetBool env debugMode

/-- GetHTTPSEnabled returns if https should be enabled. -/
def GetHTTPSEnabled (c : Config) (env : Environ) : Bool := c.v.GetBool env enableHTTPS

/-- GetGatewayTimeout returns the duration within which the reverse-proxy expects a
response, in nanoseconds. -/
def GetGatewayTimeout (c : Config) (env : Environ) : Int := c.v.GetDuration env gatewayTimeout

/-- GetAllowedOrigins returns the allowed origins: `strings.Split` of the resolved
string at the commas. -/
def GetAllowedOrigins (c : Config) (env : Environ) : List GoString :=
  Split (c.v.GetString env allowedOrigins) ','

end Config

/-- The loop of `Config.String` over the settings map `all`: tokens and secrets are not
echoed. -/
def maskSecrets (all : Settings) : Settings :=
  all.map fun kv =>
    let k := kv.1
    let val := kv.2
    let val := if Contains k "TOKEN".toList || Contains k "token".toList
      then Value.str "***".toList else val
    let val := if Contains k "PASSWORD".toList || Contains k "password".toList
      then Value.str "***".toList else val
    (k, val)

/-- The body of `Config.String` once the settings map `all` is at hand: mask, then
`fmt.Sprintf("%v", all)`. -/
def stringOf (all : Settings) : GoString := Sprintf (maskSecrets all)

/-- String returns the string representation of the configuration. -/
def Config.String (c : Config) (env : Environ) : GoString :=
  stringOf (c.v.AllSettings env)

/-- The loop of `Config.verify` over the settings map `config`: the `switch` on the
upper-cased key, one `case` after the other. -/
def verifySettings (IsURL : URLRule) (config : Settings) : MultiError :=
  config.foldl (fun errors kv =>
    let k := kv.1
    let v := kv.2
    let key := ToUpper k
    if key = idlerAPIURL then errors
    else if key = f8TenantAPIURL then errors
    else if key = witAPIURL then errors
    else if key = redirectURL then errors
    else if key = authURL then errors.Collect (IsURL v k)
    else if key = pgHost then errors
    else if key = pgDB then errors
    else if key = pgUser then errors
    else if key = pgPass then errors
    else if key = authToken then errors
    else if key = allowedOrigins then errors
    else if key = indexPath then errors.Collect (IsNotEmpty v k)
    else errors) { Errors := [] }

/-- The method `verify` checks whether all needed config options are set. -/
def Config.verify (c : Config) (env : Environ) (IsURL : URLRule) : MultiError :=
  verifySettings IsURL (c.v.AllSettings env)

/-- New creates a configuration reader object using a configurable configuration file
path. The result is the pair `(Configuration, error)` of the Go function; the logging of
the collected errors leaves no trace in it. -/
def New (env : Environ) (fs : FileSystem) (IsURL : URLRule) (configFilePath : GoString) :
    Option Config × Option Error :=
  let c : Config := { v := Viper.New }
  let c : Config := { v := c.v.AutomaticEnv }
  let c : Config := { v := c.v.SetEnvKeyReplacer '.' '_' }
  let c : Config := { v := c.v.SetTypeByDefaultValue true }
  let c := c.setConfigDefaults
  let loaded : Except Error Config :=
    if configFilePath ≠ [] then
      let c : Config := { v := c.v.SetConfigType "yaml".toList }
      let c : Config := { v := c.v.SetConfigFile configFilePath }
      match c.v.ReadInConfig fs with
      | Except.error err => Except.error (Error.errorf "Fatal error config file: %s \n".toList err)
      | Except.ok v => Except.ok { v := v }
    else Except.ok c
  match loaded with
  | Except.error err => (none, some err)
  | Except.ok c =>
    let colErr := c.verify env IsURL
    if !colErr.Empty then
      (none, Wrap colErr.ToError "some config variables are missing or invalid".toList)
    else (some c, none)

/-- The configuration object of `New` as it stands when `verify` is called, when the
file source is disabled or the file was read. -/
def prepared (fs : FileSystem) (configFilePath : GoString) : Config :=
  let c : Config := Config.setConfigDefaults
    { v := ((Viper.New.AutomaticEnv).SetEnvKeyReplacer '.' '_').SetTypeByDefaultValue true }
  if configFilePath = [] then c
  else
    match ((c.v.SetConfigType "yaml".toList).SetConfigFile configFilePath).ReadInConfig fs with
    | Except.error _ => c
    | Except.ok v => { v := v }

/-- A file system without any file: every read fails. -/
def noFiles : FileSystem := fun _ path => Except.error (Error.external ("open ".toList ++ path))

/-- A rule for URLs used in examples: a URL has the form `scheme://rest`. -/
def exampleURLRule : URLRule := fun value key =>
  match value with
  | Value.str s =>
    if Contains s "://".toList then none else some (Error.violated key Constraint.wellFormedURL)
  | _ => some (Error.violated key Constraint.wellFormedURL)

/-! ## The words of the claims -/

/-- The mask `"***"` that stands for a secret value. -/
def mask : Value := Value.str "***".toList

/-- The test of the loop of `Config.String`: the key holds one of the four spellings
`TOKEN`, `token`, `PASSWORD`, `password`. -/
def isMasked (k : GoString) : Bool :=
  Contains k "TOKEN".toList || Contains k "token".toList
    || Contains k "PASSWORD".toList || Contains k "password".toList

/-- The redaction rule in the words of the specification: the name contains, compared
case-insensitively, the substring `token` or `password`. -/
def isSecretName (k : GoString) : Bool :=
  containsFold k "token".toList || containsFold k "password".toList

/-- The rule of the validator for one entry of the settings map, in the words of the
specification: the auth URL must be a well-formed URL, the index path must not be empty,
the key being compared in upper case; no other key has a rule. -/
def validationRule (IsURL : URLRule) (kv : GoString × Value) : Option Error :=
  if ToUpper kv.1 = authURL then IsURL kv.2 kv.1
  else if ToUpper kv.1 = indexPath then IsNotEmpty kv.2 kv.1
  else none

/-- The default source that `setConfigDefaults` fills. -/
def defaultSettings : Settings := (Config.setConfigDefaults { v := Viper.New }).v.defaults

/-- The declared type of a key (§3); the string list is held as a string. -/
inductive Kind where
  | string
  | integer
  | boolean
  | duration
deriving DecidableEq, Repr

/-- A value coerced to a declared type. -/
def coerce : Kind → Value → Value
  | Kind.string, val => Value.str (ToString val)
  | Kind.integer, val => Value.int (ToInt val)
  | Kind.boolean, val => Value.bool (ToBool val)
  | Kind.duration, val => Value.dur (ToDuration val)

/-- The accessor facade: every key with its declared type and with its accessor, whose
result is given as a value of that type. The allowed origins are listed by the string
`GetAllowedOrigins` splits. -/
def accessors : List (GoString × Kind × (Config → Environ → Value)) :=
  [ (pgHost, Kind.string, fun c env => Value.str (c.GetPostgresHost env)),
    (pgPort, Kind.integer, fun c env => Value.int (c.GetPostgresPort env)),
    (pgUser, Kind.string, fun c env => Value.str (c.GetPostgresUser env)),
    (pgDB, Kind.string, fun c env => Value.str (c.GetPostgresDatabase env)),
    (pgPass, Kind.string, fun c env => Value.str (c.GetPostgresPassword env)),
    (pgSSLMode, Kind.string, fun c env => Value.str (c.GetPostgresSSLMode env)),
    (pgConnTimeout, Kind.integer, fun c env => Value.int (c.GetPostgresConnectionTimeout env)),
    (pgConnMaxIdle, Kind.integer, fun c env => Value.int (c.GetPostgresConnectionMaxIdle env)),
    (pgConnMaxOpen, Kind.integer, fun c env => Value.int (c.GetPostgresConnectionMaxOpen env)),
    (idlerAPIURL, Kind.string, fun c env => Value.str (c.GetIdlerURL env)),
    (authURL, Kind.string, fun c env => Value.str (c.GetAuthURL env)),
    (f8TenantAPIURL, Kind.string, fun c env => Value.str (c.GetTenantURL env)),
    (witAPIURL, Kind.string, fun c env => Value.str (c.GetWitURL env)),
    (authToken, Kind.string, fun c env => Value.str (c.GetAuthToken env)),
    (redirectURL, Kind.string, fun c env => Value.str (c.GetRedirectURL env)),
    (indexPath, Kind.string, fun c env => Value.str (c.GetIndexPath env)),
    (maxRequestRetry, Kind.integer, fun c env => Value.int (c.GetMaxRequestRetry env)),
    (debugMode, Kind.boolean, fun c env => Value.bool (c.GetDebugMode env)),
    (enableHTTPS, Kind.boolean, fun c env => Value.bool (c.GetHTTPSEnabled env)),
    (gatewayTimeout, Kind.duration, fun c env => Value.dur (c.GetGatewayTimeout env)),
    (allowedOrigins, Kind.string, fun c env => Value.str (c.v.GetString env allowedOrigins)) ]

/-- The declared type that a native value has. -/
def kindOf : Value → Kind
  | Value.str _ => Kind.string
  | Value.int _ => Kind.integer
  | Value.bool _ => Kind.boolean
  | Value.dur _ => Kind.duration

/-- The keys whose declared type is integer, boolean or duration. -/
def typedKeys : List GoString :=
  [pgPort, pgConnTimeout, pgConnMaxIdle, pgConnMaxOpen, maxRequestRetry, debugMode,
    enableHTTPS, gatewayTimeout]

/-- A file system with one document, whatever the path. -/
def oneFile (doc : Settings) : FileSystem := fun _ _ => Except.ok doc

/-! ## Lemmas on strings -/

theorem startsWith_iff (s p : GoString) : startsWith s p = true ↔ p <+: s := by
  induction s generalizing p with
  | nil => cases p <;> simp [startsWith]
  | cons c s ih =>
    cases p with
    | nil => simp [startsWith]
    | cons d p =>
      simp only [startsWith, Bool.and_eq_true, beq_iff_eq, ih, List.cons_prefix_cons]
      constructor
      · rintro ⟨rfl, h⟩; exact ⟨rfl, h⟩
      · rintro ⟨rfl, h⟩; exact ⟨rfl, h⟩

theorem Contains_iff (s sub : GoString) : Contains s sub = true ↔ sub <:+: s := by
  induction s with
  | nil => cases sub <;> simp [Contains]
  | cons c s ih =>
    simp only [Contains, Bool.or_eq_true, startsWith_iff, ih]
    rw [List.infix_cons_iff]

theorem map_infix {f : Char → Char} {a b : GoString} (h : a <:+: b) : a.map f <:+: b.map f := by
  obtain ⟨p, q, rfl⟩ := h
  exact ⟨p.map f, q.map f, by simp⟩

theorem Split_ne_nil (s : GoString) (sep : Char) : Split s sep ≠ [] := by
  induction s with
  | nil => simp [Split]
  | cons c s ih =>
    unfold Split
    split
    · simp
    · split
      · simp
      · simp

theorem intercalate_cons_cons (sep a b : GoString) (l : List GoString) :
    List.intercalate sep (a :: b :: l) = a ++ sep ++ List.intercalate sep (b :: l) := by
  simp [List.intercalate, List.intersperse]

theorem intercalate_Split (s : GoString) (sep : Char) :
    List.intercalate [sep] (Split s sep) = s := by
  induction s with
  | nil => simp [Split, List.intercalate]
  | cons c s ih =>
    unfold Split
    split
    · next h =>
      subst h
      cases hs : Split s c with
      | nil => exact absurd hs (Split_ne_nil s c)
      | cons seg rest =>
        rw [intercalate_cons_cons, ← hs, ih]
        simp
    · cases hs : Split s sep with
      | nil => exact absurd hs (Split_ne_nil s sep)
      | cons seg rest =>
        rw [hs] at ih
        cases rest with
        | nil =>
          simp [List.intercalate, List.intersperse] at ih ⊢
          exact ih
        | cons seg2 rest =>
          rw [intercalate_cons_cons] at ih ⊢
          simp only [List.cons_append, ih]

theorem length_Split (s : GoString) (sep : Char) :
    (Split s sep).length = s.count sep + 1 := by
  induction s with
  | nil => simp [Split]
  | cons c s ih =>
    unfold Split
    split
    · next h => subst h; simp [ih]
    · next h =>
      cases hs : Split s sep with
      | nil => exact absurd hs (Split_ne_nil s sep)
      | cons seg rest =>
        rw [hs] at ih
        have hne : (c == sep) = false := by simpa using h
        simp [List.count_cons, hne] at ih ⊢
        omega

theorem not_mem_of_mem_Split (s : GoString) (sep : Char) :
    ∀ seg ∈ Split s sep, sep ∉ seg := by
  induction s with
  | nil => simp [Split]
  | cons c s ih =>
    unfold Split
    split
    · intro seg hseg
      rcases List.mem_cons.1 hseg with rfl | h
      · simp
      · exact ih seg h
    · next hc =>
      cases hs : Split s sep with
      | nil => exact absurd hs (Split_ne_nil s sep)
      | cons seg rest =>
        rw [hs] at ih
        intro seg2 hseg
        rcases List.mem_cons.1 hseg with rfl | h
        · intro hmem
          rcases List.mem_cons.1 hmem with h1 | h1
          · exact hc h1.symm
          · exact ih seg (List.mem_cons_self _ _) h1
        · exact ih seg2 (List.mem_cons_of_mem _ h)

theorem Split_of_not_mem (seg : GoString) (sep : Char) (h : sep ∉ seg) :
    Split seg sep = [seg] := by
  induction seg with
  | nil => simp [Split]
  | cons c s ih =>
    have hc : c ≠ sep := fun e => h (e ▸ List.mem_cons_self _ _)
    have hs : sep ∉ s := fun e => h (List.mem_cons_of_mem _ e)
    simp [Split, hc, ih hs]

theorem Split_append_sep (seg rest : GoString) (sep : Char) (h : sep ∉ seg) :
    Split (seg ++ sep :: rest) sep = seg :: Split rest sep := by
  induction seg with
  | nil => simp [Split]
  | cons c s ih =>
    have hc : c ≠ sep := fun e => h (e ▸ List.mem_cons_self _ _)
    have hs : sep ∉ s := fun e => h (List.mem_cons_of_mem _ e)
    simp [Split, hc, ih hs]

theorem Split_intercalate (segs : List GoString) (sep : Char) (hne : segs ≠ [])
    (h : ∀ seg ∈ segs, sep ∉ seg) : Split (List.intercalate [sep] segs) sep = segs := by
  induction segs with
  | nil => exact absurd rfl hne
  | cons a l ih =>
    cases l with
    | nil =>
      simp [List.intercalate, List.intersperse]
      exact Split_of_not_mem a sep (h a (List.mem_cons_self _ _))
    | cons b l =>
      rw [intercalate_cons_cons]
      have := ih (by simp) (fun seg hs => h seg (List.mem_cons_of_mem _ hs))
      simp only [List.append_assoc, List.singleton_append]
      rw [Split_append_sep _ _ _ (h a (List.mem_cons_self _ _)), this]



/-! ## The redacted dump -/

theorem maskSecrets_eq (all : Settings) :
    maskSecrets all = all.map fun kv => (kv.1, if isMasked kv.1 then mask else kv.2) := by
  unfold maskSecrets
  apply List.map_congr_left
  intro kv _
  dsimp only [isMasked, mask]
  generalize Contains kv.1 "TOKEN".toList = a
  generalize Contains kv.1 "token".toList = b
  generalize Contains kv.1 "PASSWORD".toList = c
  generalize Contains kv.1 "password".toList = d
  cases a <;> cases b <;> cases c <;> cases d <;> rfl

theorem infix_intercalate (sep x : GoString) (xs : List GoString) (h : x ∈ xs) :
    x <:+: List.intercalate sep xs := by
  induction xs with
  | nil => cases h
  | cons a l ih =>
    cases l with
    | nil =>
      rcases List.mem_cons.1 h with rfl | h
      · simp [List.intercalate, List.intersperse]
      · cases h
    | cons b l =>
      rw [intercalate_cons_cons]
      rcases List.mem_cons.1 h with rfl | h
      · exact ⟨[], sep ++ List.intercalate sep (b :: l), by simp⟩
      · obtain ⟨p, q, hpq⟩ := ih h
        exact ⟨a ++ sep ++ p, q, by simp [← hpq]⟩

theorem entry_infix_Sprintf (all : Settings) (kv : GoString × Value) (h : kv ∈ all) :
    (kv.1 ++ ":".toList ++ formatValue kv.2) <:+: Sprintf all := by
  have hm : (kv.1 ++ ":".toList ++ formatValue kv.2) ∈
      all.map (fun kv => kv.1 ++ ":".toList ++ formatValue kv.2) :=
    List.mem_map.2 ⟨kv, h, rfl⟩
  obtain ⟨p, q, hpq⟩ := infix_intercalate " ".toList _ _ hm
  refine ⟨"map[".toList ++ p, q ++ "]".toList, ?_⟩
  unfold Sprintf
  rw [← hpq]
  simp only [List.append_assoc]

theorem lower_TOKEN : ToLower "TOKEN".toList = "token".toList := by decide

theorem lower_token : ToLower "token".toList = "token".toList := by decide

theorem lower_PASSWORD : ToLower "PASSWORD".toList = "password".toList := by decide

theorem lower_password : ToLower "password".toList = "password".toList := by decide

theorem isSecretName_of_isMasked (k : GoString) (h : isMasked k = true) :
    isSecretName k = true := by
  simp only [isMasked, Bool.or_eq_true, Contains_iff] at h
  simp only [isSecretName, containsFold, Bool.or_eq_true, Contains_iff, lower_token,
    lower_password]
  rcases h with ((h | h) | h) | h
  · exact Or.inl (lower_TOKEN ▸ map_infix (f := lowerChar) h)
  · exact Or.inl (lower_token ▸ map_infix (f := lowerChar) h)
  · exact Or.inr (lower_PASSWORD ▸ map_infix (f := lowerChar) h)
  · exact Or.inr (lower_password ▸ map_infix (f := lowerChar) h)

theorem isMasked_of_lower (k : GoString) (hk : ToLower k = k) :
    isMasked k = isSecretName k := by
  cases hs : isSecretName k with
  | true =>
    simp only [isSecretName, containsFold, Bool.or_eq_true, hk, lower_token,
      lower_password] at hs
    simp only [isMasked, Bool.or_eq_true]
    rcases hs with h | h
    · exact Or.inl (Or.inl (Or.inr h))
    · exact Or.inr h
  | false =>
    cases hm : isMasked k with
    | true => rw [isSecretName_of_isMasked k hm] at hs; cases hs
    | false => rfl

theorem maskSecrets_congr (a b : Settings)
    (h : List.Forall₂ (fun x y => x.1 = y.1 ∧ (isMasked x.1 = false → x.2 = y.2)) a b) :
    maskSecrets a = maskSecrets b := by
  rw [maskSecrets_eq, maskSecrets_eq]
  induction h with
  | nil => rfl
  | @cons x y l1 l2 hxy _ ih =>
    obtain ⟨h1, h2⟩ := hxy
    simp only [List.map_cons, ih, ← h1]
    cases hm : isMasked x.1 with
    | true => simp
    | false => simp [h2 hm]

theorem masked_entry_infix (all : Settings) (kv : GoString × Value) (h : kv ∈ all) :
    (kv.1 ++ ":".toList ++ (if isMasked kv.1 then "***".toList else formatValue kv.2))
      <:+: stringOf all := by
  have hm : (kv.1, if isMasked kv.1 then mask else kv.2) ∈ maskSecrets all := by
    rw [maskSecrets_eq]
    exact List.mem_map.2 ⟨kv, h, rfl⟩
  have := entry_infix_Sprintf (maskSecrets all) _ hm
  unfold stringOf
  cases hk : isMasked kv.1 with
  | true => simpa [hk, mask, formatValue] using this
  | false => simpa [hk] using this

theorem toNat_ofNat_letter (n : Nat) (h1 : 65 ≤ n) (h2 : n ≤ 90) :
    (Char.ofNat (n + 32)).toNat = n + 32 := by
  interval_cases n <;> rfl

theorem toNat_bounds_of_upper (c : Char) (h : 'A' ≤ c ∧ c ≤ 'Z') :
    65 ≤ c.toNat ∧ c.toNat ≤ 90 := by
  obtain ⟨h1, h2⟩ := h
  rw [Char.le_def] at h1 h2
  exact ⟨h1, h2⟩

theorem lowerChar_not_upper (c : Char) : ¬ ('A' ≤ lowerChar c ∧ lowerChar c ≤ 'Z') := by
  unfold lowerChar
  split
  · next h =>
    obtain ⟨h1, h2⟩ := toNat_bounds_of_upper c h
    intro h3
    obtain ⟨_, h4⟩ := toNat_bounds_of_upper _ h3
    rw [toNat_ofNat_letter _ h1 h2] at h4
    omega
  · next h => exact h

theorem lowerChar_idem (c : Char) : lowerChar (lowerChar c) = lowerChar c := by
  have := lowerChar_not_upper c
  generalize lowerChar c = d at this ⊢
  simp [lowerChar, this]

theorem ToLower_idem (s : GoString) : ToLower (ToLower s) = ToLower s := by
  simp [ToLower, List.map_map, Function.comp_def, lowerChar_idem]

theorem AllSettings_keys_lower (v : Viper) (env : Environ) :
    ∀ kv ∈ v.AllSettings env, ToLower kv.1 = kv.1 := by
  intro kv hkv
  rw [Viper.AllSettings, List.mem_filterMap] at hkv
  obtain ⟨k, _, hval⟩ := hkv
  cases hg : v.Get env k with
  | none => rw [hg] at hval; cases hval
  | some val =>
    rw [hg] at hval
    cases hval
    exact ToLower_idem k

theorem maskSecrets_of_lower (all : Settings) (h : ∀ kv ∈ all, ToLower kv.1 = kv.1) :
    maskSecrets all = all.map fun kv => (kv.1, if isSecretName kv.1 then mask else kv.2) := by
  rw [maskSecrets_eq]
  apply List.map_congr_left
  intro kv hkv
  rw [isMasked_of_lower kv.1 (h kv hkv)]

/-- C1: for every map of resolved settings, the map `AllSettings` lists, whose keys are
in lower case, `Config.String` prints a map with the same keys in which every key whose
name contains `token` or `password`, compared case-insensitively, has the value `***`,
whatever its value or type, and every other key has its resolved value unchanged; each
entry is printed as `key:value`. So it is for every settings map with keys in lower
case. With no overrides the output contains the three entries of the test. -/
theorem Config_String_masks_secret_names (c : Config) (env : Environ) :
    (∀ kv ∈ c.v.AllSettings env, ToLower kv.1 = kv.1) ∧
    maskSecrets (c.v.AllSettings env)
      = (c.v.AllSettings env).map
          (fun kv => (kv.1, if isSecretName kv.1 then mask else kv.2)) ∧
    c.String env = Sprintf ((c.v.AllSettings env).map
      fun kv => (kv.1, if isSecretName kv.1 then mask else kv.2)) ∧
    (∀ kv ∈ c.v.AllSettings env,
      (kv.1 ++ ":".toList ++ (if isSecretName kv.1 then "***".toList else formatValue kv.2))
        <:+: c.String env) ∧
    (∀ all : Settings, (∀ kv ∈ all, ToLower kv.1 = kv.1) →
      stringOf all
        = Sprintf (all.map fun kv => (kv.1, if isSecretName kv.1 then mask else kv.2))) ∧
    (∀ (fs : FileSystem) (IsURL : URLRule), (New [] fs IsURL []).1.map
        (fun c =>
          Contains (c.String []) "jc_index_path:/opt/fabric8-jenkins-proxy/index.html".toList
          && Contains (c.String []) "jc_max_request_retry:10".toList
          && Contains (c.String []) "jc_enable_https:false".toList) = some true) := by
  have hl := AllSettings_keys_lower c.v env
  refine ⟨hl, maskSecrets_of_lower _ hl, ?_, ?_, ?_, fun _ _ => rfl⟩
  · rw [Config.String, stringOf, maskSecrets_of_lower _ hl]
  · intro kv hkv
    have := masked_entry_infix (c.v.AllSettings env) kv hkv
    rw [isMasked_of_lower kv.1 (hl kv hkv)] at this
    exact this
  · intro all hall
    rw [stringOf, maskSecrets_of_lower all hall]

/-- C2 (counterexample): the postgres password is `disable`, a non-empty string under a
key that contains `password`. The password is masked at its key, and still the dump
contains the text `disable`, which is also the SSL mode: so for the settings map of the
two keys, and so for the configuration that `New` builds from a file that sets the
password. -/
theorem String_contains_secret_value :
    stringOf [("jc_postgres_password".toList, Value.str "disable".toList),
        ("jc_postgres_ssl_mode".toList, Value.str "disable".toList)]
      = "map[jc_postgres_password:*** jc_postgres_ssl_mode:disable]".toList ∧
    "disable".toList <:+: stringOf [("jc_postgres_password".toList, Value.str "disable".toList),
        ("jc_postgres_ssl_mode".toList, Value.str "disable".toList)] ∧
    (New [] (oneFile [("jc_postgres_password".toList, Value.str "disable".toList)])
        exampleURLRule "config.yaml".toList).1.map
      (fun c => (isSecretName "jc_postgres_password".toList, c.GetPostgresPassword [],
        Contains (c.String []) "jc_postgres_password:***".toList,
        Contains (c.String []) "disable".toList))
      = some (true, "disable".toList, true, true) := by
  refine ⟨by decide, ?_, by decide⟩
  rw [← Contains_iff]
  decide

/-- C2 (amended): the dump does not depend on the values of the masked keys. Two
settings maps with the same keys that agree on every key whose name holds none of
`TOKEN`, `token`, `PASSWORD`, `password` have the same dump, and the entry of a masked
key is printed as `key:***`; so it is for every lower-case key that contains `token` or
`password`. -/
theorem stringOf_hides_masked_values (a b : Settings)
    (h : List.Forall₂ (fun x y => x.1 = y.1 ∧ (isMasked x.1 = false → x.2 = y.2)) a b) :
    stringOf a = stringOf b ∧
    (∀ kv ∈ a, isMasked kv.1 = true → (kv.1 ++ ":***".toList) <:+: stringOf a) ∧
    (∀ kv ∈ a, ToLower kv.1 = kv.1 → isSecretName kv.1 = true →
      (kv.1 ++ ":***".toList) <:+: stringOf a) := by
  have key : ∀ kv ∈ a, isMasked kv.1 = true → (kv.1 ++ ":***".toList) <:+: stringOf a := by
    intro kv hkv hm
    have := masked_entry_infix a kv hkv
    rw [hm] at this
    simpa using this
  refine ⟨?_, key, ?_⟩
  · rw [stringOf, stringOf, maskSecrets_congr a b h]
  · intro kv hkv hl hs
    exact key kv hkv ((isMasked_of_lower kv.1 hl).trans hs)

/-- C2 (witness): two maps that differ in the auth token only. -/
theorem stringOf_hides_masked_values_witness :
    stringOf [("jc_auth_token".toList, Value.str "secret".toList),
        ("jc_index_path".toList, Value.str "index.html".toList)]
      = stringOf [("jc_auth_token".toList, Value.str "other".toList),
        ("jc_index_path".toList, Value.str "index.html".toList)] :=
  (stringOf_hides_masked_values _ _
    (List.Forall₂.cons ⟨rfl, by decide⟩
      (List.Forall₂.cons ⟨rfl, fun _ => rfl⟩ List.Forall₂.nil))).1



/-! ## The validator -/

theorem verify_step (IsURL : URLRule) (errors : MultiError) (k : GoString) (v : Value) :
    (if ToUpper k = idlerAPIURL then errors
    else if ToUpper k = f8TenantAPIURL then errors
    else if ToUpper k = witAPIURL then errors
    else if ToUpper k = redirectURL then errors
    else if ToUpper k = authURL then errors.Collect (IsURL v k)
    else if ToUpper k = pgHost then errors
    else if ToUpper k = pgDB then errors
    else if ToUpper k = pgUser then errors
    else if ToUpper k = pgPass then errors
    else if ToUpper k = authToken then errors
    else if ToUpper k = allowedOrigins then errors
    else if ToUpper k = indexPath then errors.Collect (IsNotEmpty v k)
    else errors) = errors.Collect (validationRule IsURL (k, v)) := by
  unfold validationRule
  dsimp only
  generalize ToUpper k = key
  by_cases h5 : key = authURL
  · subst h5
    rw [if_neg (by decide), if_neg (by decide), if_neg (by decide), if_neg (by decide),
      if_pos rfl, if_pos rfl]
  · by_cases h12 : key = indexPath
    · subst h12
      rw [if_neg (by decide), if_neg (by decide), if_neg (by decide), if_neg (by decide),
        if_neg (by decide), if_neg (by decide), if_neg (by decide), if_neg (by decide),
        if_neg (by decide), if_neg (by decide), if_neg (by decide), if_pos rfl,
        if_neg (by decide), if_pos rfl]
    · simp only [if_neg h5, if_neg h12, ite_self]
      rfl

theorem verifySettings_eq_foldl (IsURL : URLRule) (config : Settings) :
    verifySettings IsURL config
      = config.foldl (fun errors kv => errors.Collect (validationRule IsURL kv)) { Errors := [] } := by
  unfold verifySettings
  congr 1
  funext errors kv
  exact verify_step IsURL errors kv.1 kv.2

theorem foldl_Collect_Errors (IsURL : URLRule) (config : Settings) (acc : MultiError) :
    (config.foldl (fun errors kv => errors.Collect (validationRule IsURL kv)) acc).Errors
      = acc.Errors ++ config.filterMap (validationRule IsURL) := by
  induction config generalizing acc with
  | nil => simp
  | cons kv l ih =>
    rw [List.foldl_cons, ih]
    cases h : validationRule IsURL kv with
    | none => simp [MultiError.Collect, List.filterMap_cons, h]
    | some e => simp [MultiError.Collect, List.filterMap_cons, h]

theorem verifySettings_Errors (IsURL : URLRule) (config : Settings) :
    (verifySettings IsURL config).Errors = config.filterMap (validationRule IsURL) := by
  rw [verifySettings_eq_foldl, foldl_Collect_Errors]
  simp

theorem verifySettings_Empty_iff (IsURL : URLRule) (config : Settings) :
    (verifySettings IsURL config).Empty = true ↔ ∀ kv ∈ config, validationRule IsURL kv = none := by
  rw [MultiError.Empty, verifySettings_Errors, List.isEmpty_iff, List.filterMap_eq_nil_iff]


theorem authURL_ne_indexPath : authURL ≠ indexPath := by decide

theorem validationRule_eq_none_iff (IsURL : URLRule) (kv : GoString × Value) :
    validationRule IsURL kv = none ↔
      (ToUpper kv.1 = authURL → IsURL kv.2 kv.1 = none) ∧
      (ToUpper kv.1 = indexPath → IsNotEmpty kv.2 kv.1 = none) := by
  unfold validationRule
  generalize ToUpper kv.1 = key
  by_cases h1 : key = authURL
  · subst h1
    simp [authURL_ne_indexPath]
  · by_cases h2 : key = indexPath
    · subst h2
      simp [authURL_ne_indexPath.symm]
    · simp [h1, h2]

theorem validationRule_eq_some_iff (IsURL : URLRule) (kv : GoString × Value) (e : Error) :
    validationRule IsURL kv = some e ↔
      (ToUpper kv.1 = authURL ∧ IsURL kv.2 kv.1 = some e) ∨
      (ToUpper kv.1 = indexPath ∧ IsNotEmpty kv.2 kv.1 = some e) := by
  unfold validationRule
  generalize ToUpper kv.1 = key
  by_cases h1 : key = authURL
  · subst h1
    simp [authURL_ne_indexPath]
  · by_cases h2 : key = indexPath
    · subst h2
      simp [authURL_ne_indexPath.symm]
    · simp [h1, h2]

theorem filterMap_filter_of_none {α β : Type} (f : α → Option β) (p : α → Bool) (l : List α)
    (h : ∀ x, p x = false → f x = none) : (l.filter p).filterMap f = l.filterMap f := by
  induction l with
  | nil => rfl
  | cons a l ih =>
    cases hp : p a with
    | true => simp [List.filter_cons, hp, List.filterMap_cons, ih]
    | false => simp [List.filter_cons, hp, List.filterMap_cons, ih, h a hp]

/-- C3: `verify` validates exactly the auth URL (rule `IsURL`) and the index path (rule
`IsNotEmpty`), the key being compared in upper case. It does not stop at a failure: the
errors of the result are those of the failing validated entries, one each, in the order
of the map; the result is empty if and only if every validated key present passed; keys
without a rule contribute nothing, whatever their value. An empty index path fails, the
index path `indexPath` passes, and when both keys fail both errors are held. -/
theorem verify_collects_every_failure (IsURL : URLRule) (config : Settings) :
    (verifySettings IsURL config).Errors = config.filterMap (validationRule IsURL) ∧
    ((verifySettings IsURL config).Empty = true ↔
      ∀ kv ∈ config, (ToUpper kv.1 = authURL → IsURL kv.2 kv.1 = none) ∧
        (ToUpper kv.1 = indexPath → IsNotEmpty kv.2 kv.1 = none)) ∧
    (∀ kv ∈ config, ∀ e, ToUpper kv.1 = authURL → IsURL kv.2 kv.1 = some e →
      e ∈ (verifySettings IsURL config).Errors) ∧
    (∀ kv ∈ config, ∀ e, ToUpper kv.1 = indexPath → IsNotEmpty kv.2 kv.1 = some e →
      e ∈ (verifySettings IsURL config).Errors) ∧
    (∀ e ∈ (verifySettings IsURL config).Errors, ∃ kv ∈ config,
      (ToUpper kv.1 = authURL ∧ IsURL kv.2 kv.1 = some e) ∨
      (ToUpper kv.1 = indexPath ∧ IsNotEmpty kv.2 kv.1 = some e)) ∧
    (verifySettings IsURL
        (config.filter fun kv => decide (ToUpper kv.1 = authURL ∨ ToUpper kv.1 = indexPath))).Errors
      = (verifySettings IsURL config).Errors ∧
    (verifySettings IsURL [("jc_index_path".toList, Value.str [])]).Errors
      = [Error.violated "jc_index_path".toList Constraint.nonEmpty] ∧
    (verifySettings IsURL [("jc_index_path".toList, Value.str "indexPath".toList)]).Empty = true ∧
    (∀ e, IsURL (Value.str "not a url".toList) "jc_auth_url".toList = some e →
      (verifySettings IsURL [("jc_auth_url".toList, Value.str "not a url".toList),
          ("JC_INDEX_PATH".toList, Value.str [])]).Errors
        = [e, Error.violated "JC_INDEX_PATH".toList Constraint.nonEmpty]) := by
  refine ⟨verifySettings_Errors IsURL config, ?_, ?_, ?_, ?_, ?_, ?_, ?_, ?_⟩
  · rw [verifySettings_Empty_iff]
    exact forall_congr' fun kv => imp_congr_right fun _ => validationRule_eq_none_iff IsURL kv
  · intro kv hkv e hk he
    rw [verifySettings_Errors, List.mem_filterMap]
    exact ⟨kv, hkv, (validationRule_eq_some_iff IsURL kv e).2 (Or.inl ⟨hk, he⟩)⟩
  · intro kv hkv e hk he
    rw [verifySettings_Errors, List.mem_filterMap]
    exact ⟨kv, hkv, (validationRule_eq_some_iff IsURL kv e).2 (Or.inr ⟨hk, he⟩)⟩
  · intro e he
    rw [verifySettings_Errors, List.mem_filterMap] at he
    obtain ⟨kv, hkv, h⟩ := he
    exact ⟨kv, hkv, (validationRule_eq_some_iff IsURL kv e).1 h⟩
  · rw [verifySettings_Errors, verifySettings_Errors]
    apply filterMap_filter_of_none
    intro kv hp
    have hp2 : ¬ (ToUpper kv.1 = authURL ∨ ToUpper kv.1 = indexPath) := by simpa using hp
    rw [validationRule_eq_none_iff]
    exact ⟨fun h => absurd (Or.inl h) hp2, fun h => absurd (Or.inr h) hp2⟩
  · rfl
  · rfl
  · intro e he
    rw [verifySettings_Errors]
    have h1 : validationRule IsURL ("jc_auth_url".toList, Value.str "not a url".toList) = some e :=
      (validationRule_eq_some_iff IsURL _ e).2 (Or.inl ⟨by decide, he⟩)
    have h2 : validationRule IsURL ("JC_INDEX_PATH".toList, Value.str [])
        = some (Error.violated "JC_INDEX_PATH".toList Constraint.nonEmpty) :=
      (validationRule_eq_some_iff IsURL _ _).2 (Or.inr ⟨by decide, by rfl⟩)
    simp only [List.filterMap_cons, h1, h2, List.filterMap_nil]



/-! ## The constructor -/

theorem New_of_read_error (env : Environ) (fs : FileSystem) (IsURL : URLRule)
    (path : GoString) (err : Error) (hp : path ≠ [])
    (hf : fs "yaml".toList path = Except.error err) :
    New env fs IsURL path
      = (none, some (Error.errorf "Fatal error config file: %s \n".toList err)) := by
  simp only [New, ne_eq, hp, not_false_eq_true, if_true, Viper.ReadInConfig,
    Viper.SetConfigFile, Viper.SetConfigType, hf]

theorem outcome_eq (c : Config) (m : MultiError) (msg : GoString) :
    (if (!m.Empty) = true then ((none : Option Config), Wrap m.ToError msg) else (some c, none))
      = if m.Empty = true then (some c, none)
        else (none, some (Error.wrap (Error.combined m.Errors) msg)) := by
  cases h : m.Empty with
  | true => simp
  | false =>
    have h2 : m.Errors.isEmpty = false := h
    simp [MultiError.ToError, Wrap, h2]

theorem New_of_loaded (env : Environ) (fs : FileSystem) (IsURL : URLRule)
    (path : GoString) (h : path = [] ∨ ∃ doc, fs "yaml".toList path = Except.ok doc) :
    New env fs IsURL path =
      if ((prepared fs path).verify env IsURL).Empty = true then (some (prepared fs path), none)
      else (none, some (Error.wrap (Error.combined ((prepared fs path).verify env IsURL).Errors)
        "some config variables are missing or invalid".toList)) := by
  by_cases hp : path = []
  · subst hp
    simp only [New, prepared, ne_eq, not_true_eq_false, if_false, if_true]
    exact outcome_eq _ _ _
  · rcases h with h | ⟨doc, hdoc⟩
    · exact absurd h hp
    · simp only [New, prepared, ne_eq, hp, not_false_eq_true, if_true, if_false,
        Viper.ReadInConfig, Viper.SetConfigFile, Viper.SetConfigType, hdoc]
      exact outcome_eq _ _ _

/-- C4: when the file source is disabled or the file was read, `New` returns the
configuration and no error if and only if the `MultiError` of `verify` is empty;
otherwise it returns no configuration and one error, the combination of all the
collected errors wrapped with a message. In no outcome of `New`, whatever the file
does, are a configuration and an error both returned, nor neither. -/
theorem New_returns_config_iff_verify_empty (env : Environ) (fs : FileSystem)
    (IsURL : URLRule) (path : GoString) :
    ((path = [] ∨ ∃ doc, fs "yaml".toList path = Except.ok doc) →
      (New env fs IsURL path = (some (prepared fs path), none) ↔
        ((prepared fs path).verify env IsURL).Empty = true) ∧
      (((prepared fs path).verify env IsURL).Empty = false →
        New env fs IsURL path = (none, some (Error.wrap
          (Error.combined ((prepared fs path).verify env IsURL).Errors)
          "some config variables are missing or invalid".toList)))) ∧
    ((New env fs IsURL path).1.isSome = true ↔ (New env fs IsURL path).2 = none) := by
  have loaded : (path = [] ∨ ∃ doc, fs "yaml".toList path = Except.ok doc) →
      ((New env fs IsURL path).1.isSome = true ↔ (New env fs IsURL path).2 = none) := by
    intro h
    rw [New_of_loaded env fs IsURL path h]
    split_ifs <;> simp
  constructor
  · intro h
    constructor
    · rw [New_of_loaded env fs IsURL path h]
      split_ifs with hE
      · simp [hE]
      · simp [hE]
    · intro hE
      rw [New_of_loaded env fs IsURL path h]
      simp [hE]
  · by_cases hp : path = []
    · exact loaded (Or.inl hp)
    · cases hf : fs "yaml".toList path with
      | error err =>
        rw [New_of_read_error env fs IsURL path err hp hf]
        simp
      | ok doc => exact loaded (Or.inr ⟨doc, hf⟩)

/-- C4 (witness): with the file source disabled and an empty index path in the
environment, `verify` collects one error and `New` returns it wrapped, with no
configuration. -/
theorem New_returns_config_iff_verify_empty_witness :
    New [(indexPath, [])] noFiles exampleURLRule []
      = (none, some (Error.wrap
          (Error.combined [Error.violated "jc_index_path".toList Constraint.nonEmpty])
          "some config variables are missing or invalid".toList)) :=
  ((New_returns_config_iff_verify_empty [(indexPath, [])] noFiles exampleURLRule []).1
    (Or.inl rfl)).2 (by decide)

/-- C5: for every non-empty path whose file cannot be opened or parsed, `New` returns no
configuration and the error of the read, wrapped as a fatal error of the configuration
file, whatever the environment, the defaults and the rules are: validation plays no part
and there is no fallback to a configuration of defaults and environment. -/
theorem New_fails_when_file_unreadable (env : Environ) (fs : FileSystem) (IsURL : URLRule)
    (path : GoString) (err : Error) (hp : path ≠ [])
    (hf : fs "yaml".toList path = Except.error err) :
    New env fs IsURL path
        = (none, some (Error.errorf "Fatal error config file: %s \n".toList err)) ∧
    (∀ (env2 : Environ) (IsURL2 : URLRule),
      New env2 fs IsURL2 path = New env fs IsURL path) := by
  refine ⟨New_of_read_error env fs IsURL path err hp hf, fun env2 IsURL2 => ?_⟩
  rw [New_of_read_error env fs IsURL path err hp hf,
    New_of_read_error env2 fs IsURL2 path err hp hf]

/-- C5 (witness): the file `fileNot.yaml` does not exist. -/
theorem New_fails_when_file_unreadable_witness :
    New [] noFiles exampleURLRule "fileNot.yaml".toList
      = (none, some (Error.errorf "Fatal error config file: %s \n".toList
          (Error.external "open fileNot.yaml".toList))) :=
  (New_fails_when_file_unreadable [] noFiles exampleURLRule "fileNot.yaml".toList
    (Error.external "open fileNot.yaml".toList) (by decide) rfl).1



/-! ## The resolver -/

theorem Get_eq (v : Viper) (env : Environ) (K : GoString)
    (ha : v.automaticEnvApplied = true) (ht : v.typeByDefValue = true) :
    v.Get env K =
      (match env.lookup (v.envName (ToLower K)) with
        | some raw => some (Value.str raw)
        | none =>
          match v.config.lookup (ToLower K) with
          | some fv => some fv
          | none => v.defaults.lookup (ToLower K)).map
        (fun x => match v.defaults.lookup (ToLower K) with
          | some d => Viper.castAs d x
          | none => x) := by
  unfold Viper.Get Viper.find
  simp only [ha, ht, if_true]
  cases env.lookup (v.envName (ToLower K)) with
  | some raw => cases v.defaults.lookup (ToLower K) <;> rfl
  | none =>
    cases v.config.lookup (ToLower K) with
    | some fv => cases v.defaults.lookup (ToLower K) <;> rfl
    | none => cases v.defaults.lookup (ToLower K) <;> rfl

theorem prepared_facts (fs : FileSystem) (path : GoString) :
    (prepared fs path).v.automaticEnvApplied = true ∧
    (prepared fs path).v.envKeyReplacer = some ('.', '_') ∧
    (prepared fs path).v.typeByDefValue = true ∧
    (prepared fs path).v.defaults = defaultSettings := by
  unfold prepared
  split
  · exact ⟨rfl, rfl, rfl, rfl⟩
  · simp only [Viper.ReadInConfig]
    split <;> rename_i h <;> revert h <;> split <;> intro h <;> cases h <;>
      exact ⟨rfl, rfl, rfl, rfl⟩

theorem New_eq_some (env : Environ) (fs : FileSystem) (IsURL : URLRule) (path : GoString)
    (c : Config) (h : New env fs IsURL path = (some c, none)) : c = prepared fs path := by
  by_cases hp : path = []
  · rw [New_of_loaded env fs IsURL path (Or.inl hp)] at h
    split_ifs at h
    · simpa using h.symm
    · simp at h
  · cases hf : fs "yaml".toList path with
    | error err =>
      rw [New_of_read_error env fs IsURL path err hp hf] at h
      simp at h
    | ok doc =>
      rw [New_of_loaded env fs IsURL path (Or.inr ⟨doc, hf⟩)] at h
      split_ifs at h
      · simpa using h.symm
      · simp at h

theorem envName_prepared (fs : FileSystem) (path : GoString) (lk : GoString) :
    (prepared fs path).v.envName lk = (ToUpper lk).map fun c => if c = '.' then '_' else c := by
  simp only [Viper.envName, (prepared_facts fs path).2.1]

theorem Get_prepared (fs : FileSystem) (path : GoString) (env : Environ) (K : GoString) :
    (prepared fs path).v.Get env K =
      (match env.lookup ((ToUpper (ToLower K)).map fun c => if c = '.' then '_' else c) with
        | some raw => some (Value.str raw)
        | none =>
          match (prepared fs path).v.config.lookup (ToLower K) with
          | some fv => some fv
          | none => defaultSettings.lookup (ToLower K)).map
        (fun x => match defaultSettings.lookup (ToLower K) with
          | some d => Viper.castAs d x
          | none => x) := by
  rw [Get_eq _ _ _ (prepared_facts fs path).1 (prepared_facts fs path).2.2.1,
    envName_prepared, (prepared_facts fs path).2.2.2]

theorem castAs_eq_coerce (d x : Value) : Viper.castAs d x = coerce (kindOf d) x := by
  cases d <;> rfl

theorem typed_eq_coerce (dflt : Option Value) (kind : Kind) (x : Value) :
    (dflt.all fun d => decide (kindOf d = kind)) = true →
    coerce kind ((fun y => match dflt with
      | some d => Viper.castAs d y
      | none => y) x) = coerce kind x := by
  intro hd
  cases dflt with
  | none => rfl
  | some d => cases d <;> cases kind <;> first | rfl | (simp [kindOf] at hd)

theorem string_of_Get (v : Viper) (env : Environ) (K : GoString) (y : Value)
    (h : v.Get env K = some y) : Value.str (v.GetString env K) = coerce Kind.string y := by
  simp only [Viper.GetString, h, coerce]

theorem int_of_Get (v : Viper) (env : Environ) (K : GoString) (y : Value)
    (h : v.Get env K = some y) : Value.int (v.GetInt env K) = coerce Kind.integer y := by
  simp only [Viper.GetInt, h, coerce]

theorem bool_of_Get (v : Viper) (env : Environ) (K : GoString) (y : Value)
    (h : v.Get env K = some y) : Value.bool (v.GetBool env K) = coerce Kind.boolean y := by
  simp only [Viper.GetBool, h, coerce]

theorem dur_of_Get (v : Viper) (env : Environ) (K : GoString) (y : Value)
    (h : v.Get env K = some y) : Value.dur (v.GetDuration env K) = coerce Kind.duration y := by
  simp only [Viper.GetDuration, h, coerce]

theorem registry_checks : ∀ entry ∈ accessors,
    ((ToUpper (ToLower entry.1)).map fun c => if c = '.' then '_' else c) = entry.1 ∧
    ((defaultSettings.lookup (ToLower entry.1)).all fun d => decide (kindOf d = entry.2.1)) = true := by
  intro entry hmem
  simp only [accessors, List.mem_cons, List.mem_singleton, List.not_mem_nil, or_false] at hmem
  rcases hmem with rfl | rfl | rfl | rfl | rfl | rfl | rfl | rfl | rfl | rfl | rfl | rfl | rfl
    | rfl | rfl | rfl | rfl | rfl | rfl | rfl | rfl
  all_goals exact ⟨by decide, by decide⟩

theorem accessor_eq_coerce_Get : ∀ entry ∈ accessors, ∀ (c : Config) (env : Environ) (y : Value),
    c.v.Get env entry.1 = some y → entry.2.2 c env = coerce entry.2.1 y := by
  intro entry hmem c env y h
  simp only [accessors, List.mem_cons, List.mem_singleton, List.not_mem_nil, or_false] at hmem
  rcases hmem with rfl | rfl | rfl | rfl | rfl | rfl | rfl | rfl | rfl | rfl | rfl | rfl | rfl
    | rfl | rfl | rfl | rfl | rfl | rfl | rfl | rfl
  all_goals first
    | exact string_of_Get _ _ _ _ h
    | exact int_of_Get _ _ _ _ h
    | exact bool_of_Get _ _ _ _ h
    | exact dur_of_Get _ _ _ _ h


theorem accessor_of_env (fs : FileSystem) (path : GoString) (env : Environ) :
    ∀ entry ∈ accessors, ∀ raw, env.lookup entry.1 = some raw →
      entry.2.2 (prepared fs path) env = coerce entry.2.1 (Value.str raw) := by
  intro entry hmem raw hraw
  obtain ⟨hname, hkind⟩ := registry_checks entry hmem
  have hget := Get_prepared fs path env entry.1
  rw [hname, hraw] at hget
  rw [accessor_eq_coerce_Get entry hmem _ env _ hget]
  exact typed_eq_coerce _ _ _ hkind

theorem accessor_of_file (fs : FileSystem) (path : GoString) (env : Environ) :
    ∀ entry ∈ accessors, env.lookup entry.1 = none →
      ∀ fv, (prepared fs path).v.config.lookup (ToLower entry.1) = some fv →
        entry.2.2 (prepared fs path) env = coerce entry.2.1 fv := by
  intro entry hmem hnone fv hfv
  obtain ⟨hname, hkind⟩ := registry_checks entry hmem
  have hget := Get_prepared fs path env entry.1
  rw [hname, hnone, hfv] at hget
  rw [accessor_eq_coerce_Get entry hmem _ env _ hget]
  exact typed_eq_coerce _ _ _ hkind

theorem AllKeys_prepared (fs : FileSystem) :
    (prepared fs []).v.AllKeys =
      ["jc_postgres_ssl_mode".toList, "jc_postgres_connection_timeout".toList,
        "jc_postgres_connection_max_idle".toList, "jc_postgres_connection_max_open".toList,
        "jc_index_path".toList, "jc_max_request_retry".toList, "jc_debug_mode".toList,
        "jc_enable_https".toList, "jc_gateway_timeout".toList, "jc_allowed_origins".toList] := by
  rfl

theorem config_prepared_nil (fs : FileSystem) : (prepared fs []).v.config = [] := by
  rfl

theorem New_without_file (env : Environ) (fs : FileSystem) (IsURL : URLRule)
    (h : env.lookup indexPath ≠ some []) :
    New env fs IsURL [] = (some (prepared fs []), none) := by
  rw [New_of_loaded env fs IsURL [] (Or.inl rfl)]
  have hE : ((prepared fs []).verify env IsURL).Empty = true := by
    rw [Config.verify, verifySettings_Empty_iff]
    intro kv hkv
    rw [Viper.AllSettings, List.mem_filterMap] at hkv
    obtain ⟨k, hk, hval⟩ := hkv
    rw [AllKeys_prepared] at hk
    have hget := Get_prepared fs [] env k
    rw [config_prepared_nil] at hget
    simp only [List.mem_cons, List.mem_singleton, List.not_mem_nil, or_false] at hk
    rcases hk with rfl | rfl | rfl | rfl | rfl | rfl | rfl | rfl | rfl | rfl
    case inr.inr.inr.inr.inl =>
      have e1 : ((ToUpper (ToLower "jc_index_path".toList)).map
          fun c => if c = '.' then '_' else c) = indexPath := by decide
      rw [e1] at hget
      cases hraw : env.lookup indexPath with
      | none =>
        rw [hraw] at hget
        have e2 : (Viper.Get (prepared fs []).v env "jc_index_path".toList)
            = some (Value.str defaultIndexPath) := by rw [hget]; rfl
        rw [e2] at hval
        cases hval
        rfl
      | some raw =>
        rw [hraw] at hget h
        have hne : raw ≠ [] := fun e => h (by rw [e])
        have e2 : (Viper.Get (prepared fs []).v env "jc_index_path".toList)
            = some (Value.str raw) := by rw [hget]; rfl
        rw [e2] at hval
        cases hval
        rw [validationRule_eq_none_iff]
        dsimp only
        refine ⟨fun e => absurd e (by decide), fun _ => ?_⟩
        have hv : Value.str raw ≠ Value.str [] := fun e => hne (Value.str.inj e)
        simp only [IsNotEmpty, hv, if_false]
    all_goals
      cases hg : Viper.Get (prepared fs []).v env _ with
      | none => rw [hg] at hval; cases hval
      | some val =>
        rw [hg] at hval
        cases hval
        rw [validationRule_eq_none_iff]
        dsimp only
        exact ⟨fun e => absurd e (by decide), fun e => absurd e (by decide)⟩
  rw [if_pos hE]

/-- C6: in a configuration returned by `New`, every accessor returns the value of the
key's environment variable, coerced to the declared type of the key, whenever the
environment has the variable, whatever the file and the defaults hold (so a string
accessor returns the text of the variable itself); when the environment has no value
and the file has one, the accessor returns the file value, coerced, in preference to
the default. -/
theorem accessors_prefer_environment (env0 : Environ) (fs : FileSystem) (IsURL : URLRule)
    (path : GoString) (c : Config) (hNew : New env0 fs IsURL path = (some c, none))
    (env : Environ) :
    (∀ entry ∈ accessors, ∀ raw, env.lookup entry.1 = some raw →
      entry.2.2 c env = coerce entry.2.1 (Value.str raw)) ∧
    (∀ entry ∈ accessors, env.lookup entry.1 = none →
      ∀ fv, c.v.config.lookup (ToLower entry.1) = some fv →
        entry.2.2 c env = coerce entry.2.1 fv) ∧
    (∀ raw, env.lookup pgSSLMode = some raw → c.GetPostgresSSLMode env = raw) ∧
    (∀ raw, env.lookup indexPath = some raw → c.GetIndexPath env = raw) ∧
    (∀ raw, env.lookup pgPort = some raw → c.GetPostgresPort env = (parseInt raw).getD 0) ∧
    (∀ raw, env.lookup allowedOrigins = some raw → c.GetAllowedOrigins env = Split raw ',') := by
  have hc := New_eq_some env0 fs IsURL path c hNew
  subst hc
  have envCase := accessor_of_env fs path env
  refine ⟨envCase, accessor_of_file fs path env, ?_, ?_, ?_, ?_⟩
  · intro raw hraw
    have := envCase (pgSSLMode, Kind.string, fun c env => Value.str (c.GetPostgresSSLMode env))
      (by simp [accessors]) raw hraw
    simpa [coerce, ToString] using this
  · intro raw hraw
    have := envCase (indexPath, Kind.string, fun c env => Value.str (c.GetIndexPath env))
      (by simp [accessors]) raw hraw
    simpa [coerce, ToString] using this
  · intro raw hraw
    have := envCase (pgPort, Kind.integer, fun c env => Value.int (c.GetPostgresPort env))
      (by simp [accessors]) raw hraw
    simpa [coerce, ToInt] using this
  · intro raw hraw
    have := envCase (allowedOrigins, Kind.string,
      fun c env => Value.str (c.v.GetString env allowedOrigins)) (by simp [accessors]) raw hraw
    have h2 : (prepared fs path).v.GetString env allowedOrigins = raw := by
      simpa [coerce, ToString] using this
    rw [Config.GetAllowedOrigins, h2]

/-- C6 (witness): the file sets the SSL mode to `require` and the index path to
`file.html`; the environment sets the SSL mode to `enable`. The SSL mode is that of the
environment and not the default `disable`, the index path that of the file. -/
theorem accessors_prefer_environment_witness :
    (prepared (oneFile [("jc_postgres_ssl_mode".toList, Value.str "require".toList),
        ("jc_index_path".toList, Value.str "file.html".toList)])
      "config.yaml".toList).GetPostgresSSLMode [(pgSSLMode, "enable".toList)] = "enable".toList ∧
    (prepared (oneFile [("jc_postgres_ssl_mode".toList, Value.str "require".toList),
        ("jc_index_path".toList, Value.str "file.html".toList)])
      "config.yaml".toList).GetIndexPath [(pgSSLMode, "enable".toList)] = "file.html".toList :=
  have h := accessors_prefer_environment [(pgSSLMode, "enable".toList)]
    (oneFile [("jc_postgres_ssl_mode".toList, Value.str "require".toList),
      ("jc_index_path".toList, Value.str "file.html".toList)])
    exampleURLRule "config.yaml".toList _ rfl [(pgSSLMode, "enable".toList)]
  ⟨h.2.2.1 _ (by decide), by
    have := h.2.1 (indexPath, Kind.string, fun c env => Value.str (c.GetIndexPath env))
      (by simp [accessors]) (by decide) (Value.str "file.html".toList) (by decide)
    simpa [coerce, ToString] using this⟩



theorem Get_default (fs : FileSystem) (env : Environ) (K : GoString) (d : Value)
    (henv : env.lookup ((ToUpper (ToLower K)).map fun c => if c = '.' then '_' else c) = none)
    (hd : defaultSettings.lookup (ToLower K) = some d) :
    (prepared fs []).v.Get env K = some (Viper.castAs d d) := by
  rw [Get_prepared, config_prepared_nil, henv, hd]
  rfl

/-- C7: in every configuration built by `New("")`, for each key with a declared
default by itself: when the environment has no value for the key at the call (there is
no file), the accessor of the key returns exactly the default, whatever the environment
holds for the other keys. -/
theorem accessors_return_defaults (env0 : Environ) (fs : FileSystem) (IsURL : URLRule)
    (c : Config) (hNew : New env0 fs IsURL [] = (some c, none)) (env : Environ) :
    (env.lookup pgSSLMode = none → c.GetPostgresSSLMode env = "disable".toList) ∧
    (env.lookup pgConnTimeout = none → c.GetPostgresConnectionTimeout env = 5) ∧
    (env.lookup pgConnMaxIdle = none → c.GetPostgresConnectionMaxIdle env = -1) ∧
    (env.lookup pgConnMaxOpen = none → c.GetPostgresConnectionMaxOpen env = -1) ∧
    (env.lookup indexPath = none →
      c.GetIndexPath env = "/opt/fabric8-jenkins-proxy/index.html".toList) ∧
    (env.lookup maxRequestRetry = none → c.GetMaxRequestRetry env = 10) ∧
    (env.lookup debugMode = none → c.GetDebugMode env = false) ∧
    (env.lookup enableHTTPS = none → c.GetHTTPSEnabled env = false) ∧
    (env.lookup gatewayTimeout = none → c.GetGatewayTimeout env = 5 * 1000000000) ∧
    (env.lookup allowedOrigins = none →
      c.GetAllowedOrigins env
        = ["https://*openshift.io".toList, "https://localhost:*".toList,
            "http://localhost:*".toList]) := by
  have hc := New_eq_some env0 fs IsURL [] c hNew
  subst hc
  refine ⟨?_, ?_, ?_, ?_, ?_, ?_, ?_, ?_, ?_, ?_⟩
  · intro h
    rw [Config.GetPostgresSSLMode, Viper.GetString,
      Get_default fs env pgSSLMode (Value.str defaultPostgresSSLMode) h (by decide)]
    rfl
  · intro h
    rw [Config.GetPostgresConnectionTimeout, Viper.GetInt,
      Get_default fs env pgConnTimeout (Value.int defaultPostgresConnectionTimeout) h
        (by decide)]
    rfl
  · intro h
    rw [Config.GetPostgresConnectionMaxIdle, Viper.GetInt,
      Get_default fs env pgConnMaxIdle (Value.int defaultPostgresConnectionMaxIdle) h
        (by decide)]
    rfl
  · intro h
    rw [Config.GetPostgresConnectionMaxOpen, Viper.GetInt,
      Get_default fs env pgConnMaxOpen (Value.int defaultPostgresConnectionMaxOpen) h
        (by decide)]
    rfl
  · intro h
    rw [Config.GetIndexPath, Viper.GetString,
      Get_default fs env indexPath (Value.str defaultIndexPath) h (by decide)]
    rfl
  · intro h
    rw [Config.GetMaxRequestRetry, Viper.GetInt,
      Get_default fs env maxRequestRetry (Value.int defaultMaxRequestRetry) h (by decide)]
    rfl
  · intro h
    rw [Config.GetDebugMode, Viper.GetBool,
      Get_default fs env debugMode (Value.bool defaultDebugMode) h (by decide)]
    rfl
  · intro h
    rw [Config.GetHTTPSEnabled, Viper.GetBool,
      Get_default fs env enableHTTPS (Value.bool defaultHTTPSEnabled) h (by decide)]
    rfl
  · intro h
    rw [Config.GetGatewayTimeout, Viper.GetDuration,
      Get_default fs env gatewayTimeout (Value.dur defaultGatewayTimeout) h (by decide)]
    rfl
  · intro h
    rw [Config.GetAllowedOrigins, Viper.GetString,
      Get_default fs env allowedOrigins (Value.str defaultAllowedOrigins) h (by decide)]
    decide

/-- C7 (witness): the environment of the tests, in which the SSL mode, the index path
and the auth URL are set: `New("")` builds a configuration, and the connection timeout,
the retry count and the gateway timeout, which are not set, are the defaults. -/
theorem accessors_return_defaults_witness :
    New [(pgSSLMode, "enable".toList), (authURL, "auth.openshift.io".toList),
        (indexPath, "indexPath".toList)] noFiles exampleURLRule []
      = (some (prepared noFiles []), none) ∧
    (prepared noFiles []).GetPostgresConnectionTimeout
      [(pgSSLMode, "enable".toList), (authURL, "auth.openshift.io".toList),
        (indexPath, "indexPath".toList)] = 5 ∧
    (prepared noFiles []).GetMaxRequestRetry
      [(pgSSLMode, "enable".toList), (authURL, "auth.openshift.io".toList),
        (indexPath, "indexPath".toList)] = 10 ∧
    (prepared noFiles []).GetGatewayTimeout
      [(pgSSLMode, "enable".toList), (authURL, "auth.openshift.io".toList),
        (indexPath, "indexPath".toList)] = 5 * 1000000000 :=
  have h := accessors_return_defaults
    [(pgSSLMode, "enable".toList), (authURL, "auth.openshift.io".toList),
      (indexPath, "indexPath".toList)] noFiles exampleURLRule (prepared noFiles []) rfl
    [(pgSSLMode, "enable".toList), (authURL, "auth.openshift.io".toList),
      (indexPath, "indexPath".toList)]
  ⟨rfl, h.2.1 (by decide), h.2.2.2.2.2.1 (by decide), h.2.2.2.2.2.2.2.2.1 (by decide)⟩

/-! ## The allowed origins -/

/-- C8: `GetAllowedOrigins` returns the comma-free segments of the resolved string `s`
in their order, nothing trimmed and nothing dropped: joining them with a comma gives `s`
back, their number is one more than the number of commas in `s`, no segment holds a
comma, and they are the only such sequence. `openshift.io,local` gives `openshift.io`
and `local`. -/
theorem GetAllowedOrigins_segments (c : Config) (env : Environ) :
    c.GetAllowedOrigins env = Split (c.v.GetString env allowedOrigins) ',' ∧
    Join (c.GetAllowedOrigins env) ',' = c.v.GetString env allowedOrigins ∧
    (c.GetAllowedOrigins env).length = (c.v.GetString env allowedOrigins).count ',' + 1 ∧
    (∀ seg ∈ c.GetAllowedOrigins env, ',' ∉ seg) ∧
    (∀ segs : List GoString, segs ≠ [] → (∀ seg ∈ segs, ',' ∉ seg) →
      Join segs ',' = c.v.GetString env allowedOrigins → segs = c.GetAllowedOrigins env) ∧
    (New [(allowedOrigins, "openshift.io,local".toList)] noFiles exampleURLRule []).1.map
        (fun c => c.GetAllowedOrigins [(allowedOrigins, "openshift.io,local".toList)])
      = some ["openshift.io".toList, "local".toList] := by
  refine ⟨rfl, intercalate_Split _ _, length_Split _ _, not_mem_of_mem_Split _ _, ?_, by decide⟩
  intro segs hne hfree hjoin
  rw [Config.GetAllowedOrigins, ← hjoin]
  exact (Split_intercalate segs ',' hne hfree).symm

/-- C9 (counterexample): `strings.Split` of the empty string is one empty segment. The
file sets the allowed origins to the empty string; the resolved string is empty and
`GetAllowedOrigins` returns one element, the empty string. -/
theorem GetAllowedOrigins_of_empty_is_not_empty :
    Split [] ',' = [[]] ∧
    (New [] (oneFile [("jc_allowed_origins".toList, Value.str [])]) exampleURLRule
        "config.yaml".toList).1.map
      (fun c => (c.v.GetString [] allowedOrigins, c.GetAllowedOrigins [],
        (c.GetAllowedOrigins []).length))
      = some ([], [[]], 1) := by
  decide

/-- C9 (amended): when the resolved string of the allowed origins is empty,
`GetAllowedOrigins` returns the sequence that holds one element, the empty string; its
length is 1. -/
theorem GetAllowedOrigins_of_empty (c : Config) (env : Environ)
    (h : c.v.GetString env allowedOrigins = []) :
    c.GetAllowedOrigins env = [[]] ∧ (c.GetAllowedOrigins env).length = 1 := by
  rw [Config.GetAllowedOrigins, h]
  exact ⟨rfl, rfl⟩

/-- C9 (witness): the configuration whose file sets the allowed origins to the empty
string. -/
theorem GetAllowedOrigins_of_empty_witness :
    (prepared (oneFile [("jc_allowed_origins".toList, Value.str [])])
      "config.yaml".toList).GetAllowedOrigins [] = [[]] :=
  (GetAllowedOrigins_of_empty
    (prepared (oneFile [("jc_allowed_origins".toList, Value.str [])]) "config.yaml".toList)
    [] (by decide)).1

/-! ## Coercion faults -/

/-- C10 (counterexample): with `JC_POSTGRES_PORT=abc` in the environment, text that is
no integer, `New` returns a configuration and no error, and the accessor of the port
returns 0. -/
theorem New_accepts_malformed_port :
    parseInt "abc".toList = none ∧
    (New [(pgPort, "abc".toList)] noFiles exampleURLRule []).2 = none ∧
    (New [(pgPort, "abc".toList)] noFiles exampleURLRule []).1.map
      (fun c => c.GetPostgresPort [(pgPort, "abc".toList)]) = some 0 := by
  refine ⟨by decide, rfl, by decide⟩

theorem verifySettings_skip (IsURL : URLRule) (pre post : Settings) (k : GoString)
    (v : Value) (h1 : ToUpper k ≠ authURL) (h2 : ToUpper k ≠ indexPath) :
    (verifySettings IsURL (pre ++ (k, v) :: post)).Errors
      = (verifySettings IsURL (pre ++ post)).Errors := by
  have hr : validationRule IsURL (k, v) = none :=
    (validationRule_eq_none_iff IsURL (k, v)).2 ⟨fun e => absurd e h1, fun e => absurd e h2⟩
  rw [verifySettings_Errors, verifySettings_Errors, List.filterMap_append,
    List.filterMap_append, List.filterMap_cons, hr]

/-- C10 (amended): `New` reports no coercion fault. The integer, boolean and duration
keys have no rule: an entry of such a key adds no error to `verify`, whatever its value.
When the file source is disabled or the file was read, `New` returns a configuration if
and only if the entries of the auth URL and of the index path pass their rules; every
error of `New` is the fatal error of the file or the wrapped combination of violations
of these two rules; and with the file source disabled `New` returns a configuration in
every environment that does not set the index path to the empty string. -/
theorem New_reports_no_coercion_fault (env : Environ) (fs : FileSystem) (IsURL : URLRule)
    (path : GoString) :
    (∀ K ∈ typedKeys, ∀ (pre post : Settings) (k : GoString) (v : Value), ToUpper k = K →
      (verifySettings IsURL (pre ++ (k, v) :: post)).Errors
        = (verifySettings IsURL (pre ++ post)).Errors) ∧
    ((path = [] ∨ ∃ doc, fs "yaml".toList path = Except.ok doc) →
      (New env fs IsURL path = (some (prepared fs path), none) ↔
        ∀ kv ∈ (prepared fs path).v.AllSettings env,
          (ToUpper kv.1 = authURL → IsURL kv.2 kv.1 = none) ∧
          (ToUpper kv.1 = indexPath → IsNotEmpty kv.2 kv.1 = none))) ∧
    (∀ err, (New env fs IsURL path).2 = some err →
      (∃ cause, err = Error.errorf "Fatal error config file: %s \n".toList cause) ∨
      (∃ errs, err = Error.wrap (Error.combined errs)
          "some config variables are missing or invalid".toList ∧
        ∀ e ∈ errs, ∃ kv ∈ (prepared fs path).v.AllSettings env,
          (ToUpper kv.1 = authURL ∧ IsURL kv.2 kv.1 = some e) ∨
          (ToUpper kv.1 = indexPath ∧ IsNotEmpty kv.2 kv.1 = some e))) ∧
    (path = [] → env.lookup indexPath ≠ some [] →
      New env fs IsURL path = (some (prepared fs path), none)) := by
  refine ⟨?_, ?_, ?_, ?_⟩
  · intro K hK pre post k v hk
    simp only [typedKeys, List.mem_cons, List.mem_singleton, List.not_mem_nil,
      or_false] at hK
    apply verifySettings_skip
    · rw [hk]
      rcases hK with rfl | rfl | rfl | rfl | rfl | rfl | rfl | rfl <;> decide
    · rw [hk]
      rcases hK with rfl | rfl | rfl | rfl | rfl | rfl | rfl | rfl <;> decide
  · intro h
    rw [New_of_loaded env fs IsURL path h, ← forall_congr'
      (fun kv => imp_congr_right fun _ => validationRule_eq_none_iff IsURL kv),
      ← verifySettings_Empty_iff, ← Config.verify]
    split_ifs with hE
    · simp [hE]
    · simp [hE]
  · intro err herr
    by_cases hl : path = [] ∨ ∃ doc, fs "yaml".toList path = Except.ok doc
    · rw [New_of_loaded env fs IsURL path hl] at herr
      by_cases hE : ((prepared fs path).verify env IsURL).Empty = true
      · rw [if_pos hE] at herr
        cases herr
      · rw [if_neg hE] at herr
        right
        refine ⟨_, (Option.some.inj herr).symm, ?_⟩
        intro e he
        rw [Config.verify, verifySettings_Errors, List.mem_filterMap] at he
        obtain ⟨kv, hkv, hr⟩ := he
        exact ⟨kv, hkv, (validationRule_eq_some_iff IsURL kv e).1 hr⟩
    · left
      have hp : path ≠ [] := fun e => hl (Or.inl e)
      cases hf : fs "yaml".toList path with
      | ok doc => exact absurd (Or.inr ⟨doc, hf⟩) hl
      | error cause =>
        rw [New_of_read_error env fs IsURL path cause hp hf] at herr
        exact ⟨cause, (Option.some.inj herr).symm⟩
  · intro hp h
    subst hp
    exact New_without_file env fs IsURL h

/-- C10 (witness): the environment sets the port to `abc` and the retry count to `x1`;
`New("")` returns a configuration and no error. -/
theorem New_reports_no_coercion_fault_witness :
    New [(pgPort, "abc".toList), (maxRequestRetry, "x1".toList)] noFiles exampleURLRule []
      = (some (prepared noFiles []), none) :=
  (New_reports_no_coercion_fault [(pgPort, "abc".toList), (maxRequestRetry, "x1".toList)]
    noFiles exampleURLRule []).2.2.2 rfl (by decide)

end Configuration
